import Mathlib

/-!
# Discovery controller of the kube registry

A shallow embedding of `registry/kubernetes/controller.go`
(package `kuberegistry`) and the properties of its query operations.

Conventions of the embedding

* A Go call either returns its result tuple or panics: `Outcome`.
* A Go slice result is `Option (List _)`: `none` is the nil slice, `some l` a
  non-nil slice; a Go `error` result is `Option Error`, `none` being nil.
* The three informer caches are the `Stores` component of the `World`; a lister
  is a read-only view of them, so any lister implementation (also a failing
  one) is a function of the store state.
* Everything a call does besides computing its result is recorded, in order,
  in `World.trace`: log lines and lister calls.
* Functions of other packages and helpers of this package that live in other
  files (`splitServiceKey`, `toProtocolMap`, `toMicroService`,
  `Tags.IsSubsetOf`, the `%v` rendering) are parameters, bundled in `Env`.
* The logger installed behind `openlog` is a parameter of `Run`, the one
  method that hands a log call an option: `Logger`.
-/

namespace KubeRegistry

/-! ## Data model -/

/-- A non-nil Go `error` value, identified with its message. -/
abbrev Error := String

/-- Label maps (`map[string]string`) as association lists. -/
abbrev Labels := List (String × String)

/-- Go type `v1.ObjectReference`, the fields the controller reads. -/
structure ObjectReference where
  Namespace : String
  Name : String
  deriving DecidableEq, Repr

/-- Go type `v1.EndpointAddress`; `TargetRef` is a pointer and may be nil. -/
structure EndpointAddress where
  IP : String
  Hostname : String
  TargetRef : Option ObjectReference
  deriving DecidableEq, Repr

/-- Go type `v1.EndpointPort`. -/
structure EndpointPort where
  Name : String
  Port : Nat
  Protocol : String
  deriving DecidableEq, Repr

/-- Go type `v1.EndpointSubset`. -/
structure EndpointSubset where
  Addresses : List EndpointAddress
  Ports : List EndpointPort
  deriving DecidableEq, Repr

/-- Go type `v1.Endpoints`. -/
structure Endpoints where
  Name : String
  Namespace : String
  Subsets : List EndpointSubset
  deriving DecidableEq, Repr

/-- Go type `v1.Pod`, the fields the controller reads. -/
structure Pod where
  Name : String
  Namespace : String
  UID : String
  Labels : Labels
  deriving DecidableEq, Repr

/-- Go type `v1.Service`. -/
structure Service where
  Name : String
  Namespace : String
  Labels : Labels
  deriving DecidableEq, Repr

/-- Go type `utiltags.Tags`. -/
structure Tags where
  KV : Labels
  Label : String
  deriving DecidableEq, Repr

/-- Go type `registry.MicroServiceInstance`, the fields `FindEndpoints` sets;
`PM` is the type of `EndpointsMap`. -/
structure MicroServiceInstance (PM : Type) where
  InstanceID : String
  ServiceID : String
  HostName : String
  EndpointsMap : PM
  deriving DecidableEq, Repr

/-- A label selector of package `labels`, as its list of requirements. -/
structure Selector where
  requirements : Labels
  deriving DecidableEq, Repr

/-- The selector `labels.Everything()`. -/
def Everything : Selector := ⟨[]⟩

/-- Log levels of `openlog`. -/
inductive Level where
  | Debug
  | Info
  | Warn
  | Error
  deriving DecidableEq, Repr

/-- What a call does besides computing its result. -/
inductive Event where
  | log (lvl : Level) (msg : String)
  | endpointsGet (ns name : String)
  | podsGet (ns name : String)
  | servicesList (sel : Selector)
  deriving DecidableEq, Repr

/-- The three mirrored caches. -/
structure Stores where
  services : List Service
  endpoints : List Endpoints
  pods : List Pod
  deriving DecidableEq, Repr

/-- Interface `corelisters.ServiceLister`: `List(selector)`. -/
abbrev ServiceLister := Stores → Selector → Except Error (List Service)

/-- Interface `corelisters.EndpointsLister`: `Endpoints(namespace).Get(name)`. -/
abbrev EndpointsLister := Stores → String → String → Except Error Endpoints

/-- Interface `corelisters.PodLister`: `Pods(namespace).Get(name)`. -/
abbrev PodLister := Stores → String → String → Except Error Pod

/-- Type `cache.InformerSynced`, a `func() bool`: its answer at the k-th poll. -/
abbrev InformerSynced := Nat → Bool

/-- Go type `DiscoveryController`. -/
structure DiscoveryController where
  client : Nat
  sLister : ServiceLister
  eLister : EndpointsLister
  pLister : PodLister
  sListerSynced : InformerSynced
  eListerSynced : InformerSynced
  pListerSynced : InformerSynced

/-- The state a method of the controller runs in. -/
structure World where
  dc : DiscoveryController
  stores : Stores
  trace : List Event

/-- Record one event at the end of the trace. -/
def World.emit (w : World) (e : Event) : World :=
  { w with trace := w.trace ++ [e] }

/-- How a Go call ends. -/
inductive Outcome (α : Type) where
  | returned (v : α)
  | panicked (msg : String)
  deriving DecidableEq, Repr

/-- Functions the controller calls that are defined elsewhere: the helpers
`splitServiceKey` (giving name, then namespace), `toProtocolMap` and
`toMicroService` of this package, `Tags.IsSubsetOf` of `utiltags`, and the
`%v` rendering of a service list. -/
structure Env (PM MS : Type) where
  splitServiceKey : String → String × String
  toProtocolMap : EndpointAddress → List EndpointPort → PM
  toMicroService : Service → MS
  IsSubsetOf : Tags → Labels → Bool
  formatServices : List Service → String

/-- The value of an `interface{}` handed to an event handler. -/
inductive Obj where
  | service (s : Service)
  | endpoints (e : Endpoints)
  | pod (p : Pod)
  | nil
  deriving DecidableEq, Repr

/-! ## Event handlers -/

/-- Method `addService`: the type assertion panics on any other object. -/
def addService (obj : Obj) (w : World) : Outcome Unit × World :=
  match obj with
  | .service svc => (.returned (), w.emit (.log .Info ("Add Service: " ++ svc.Name)))
  | _ => (.panicked "interface conversion: interface is not *v1.Service", w)

/-- Method `addEndpoints`: the type assertion panics on any other object. -/
def addEndpoints (obj : Obj) (w : World) : Outcome Unit × World :=
  match obj with
  | .endpoints ep => (.returned (), w.emit (.log .Info ("Add Endpoint: " ++ ep.Name)))
  | _ => (.panicked "interface conversion: interface is not *v1.Endpoints", w)

/-! ## FindEndpoints -/

section Queries

variable {PM MS : Type}

/-- The instance built at lines 99 to 104. -/
def newInstance (env : Env PM MS) (ep : Endpoints) (ss : EndpointSubset)
    (as : EndpointAddress) (pod : Pod) : MicroServiceInstance PM :=
  { InstanceID := pod.UID
    ServiceID := ep.Name ++ "." ++ ep.Namespace
    HostName := as.Hostname
    EndpointsMap := env.toProtocolMap as ss.Ports }

/-- The inner loop of `FindEndpoints`, over the addresses of subset `ss`, with
`ins` the slice built so far. Reading a field of a nil `TargetRef` panics. -/
def addressLoop (env : Env PM MS) (tags : Tags) (ep : Endpoints) (ss : EndpointSubset) :
    List EndpointAddress → List (MicroServiceInstance PM) → World →
      Outcome (List (MicroServiceInstance PM)) × World
  | [], ins, w => (.returned ins, w)
  | as :: rest, ins, w =>
    match as.TargetRef with
    | none => (.panicked "invalid memory address or nil pointer dereference", w)
    | some ref =>
      let w1 := w.emit (.podsGet ref.Namespace ref.Name)
      match w.dc.pLister w.stores ref.Namespace ref.Name with
      | .error _ =>
        addressLoop env tags ep ss rest ins
          (w1.emit (.log .Warn ("error list pods: " ++ ref.Name)))
      | .ok pod =>
        if !env.IsSubsetOf tags pod.Labels then
          addressLoop env tags ep ss rest ins w1
        else
          addressLoop env tags ep ss rest (ins ++ [newInstance env ep ss as pod]) w1

/-- The outer loop of `FindEndpoints`, over the subsets of `ep`. -/
def subsetLoop (env : Env PM MS) (tags : Tags) (ep : Endpoints) :
    List EndpointSubset → List (MicroServiceInstance PM) → World →
      Outcome (List (MicroServiceInstance PM)) × World
  | [], ins, w => (.returned ins, w)
  | ss :: rest, ins, w =>
    match addressLoop env tags ep ss ss.Addresses ins w with
    | (.returned ins1, w1) => subsetLoop env tags ep rest ins1 w1
    | (.panicked msg, w1) => (.panicked msg, w1)

/-- Method `FindEndpoints`. The result pair is the instance slice and the
error. -/
def FindEndpoints (env : Env PM MS) (service : String) (tags : Tags) (w : World) :
    Outcome (Option (List (MicroServiceInstance PM)) × Option Error) × World :=
  let name := (env.splitServiceKey service).1
  let ns := (env.splitServiceKey service).2
  let w1 := w.emit (.endpointsGet ns name)
  match w.dc.eLister w.stores ns name with
  | .error err => (.returned (none, some err), w1)
  | .ok ep =>
    match subsetLoop env tags ep ep.Subsets [] w1 with
    | (.returned ins, w2) => (.returned (some ins, none), w2)
    | (.panicked msg, w2) => (.panicked msg, w2)

/-! ## GetAllServices -/

/-- The assignment of `v` to slot `i` of `ms`; an index outside the slice
panics. A slot never assigned holds the nil pointer, `none`. -/
def setIndex (ms : List (Option MS)) (i : Nat) (v : MS) : Outcome (List (Option MS)) :=
  if i < ms.length then .returned (ms.set i (some v)) else .panicked "index out of range"

/-- The loop of `GetAllServices`: `i` is the index of the next service. -/
def fillLoop (env : Env PM MS) : List Service → Nat → List (Option MS) →
    Outcome (List (Option MS))
  | [], _, ms => .returned ms
  | s :: rest, i, ms =>
    match setIndex ms i (env.toMicroService s) with
    | .returned ms1 => fillLoop env rest (i + 1) ms1
    | .panicked msg => .panicked msg

/-- Method `GetAllServices`. -/
def GetAllServices (env : Env PM MS) (w : World) :
    Outcome (Option (List (Option MS)) × Option Error) × World :=
  let w1 := w.emit (.servicesList Everything)
  match w.dc.sLister w.stores Everything with
  | .error err =>
    (.returned (none, some err),
      w1.emit (.log .Info ("get all microservices from kube failed: " ++ err)))
  | .ok microServices =>
    match fillLoop env microServices 0 (List.replicate microServices.length none) with
    | .returned ms =>
      (.returned (some ms, none),
        w1.emit (.log .Debug ("get all microservices success, microservices: "
          ++ env.formatServices microServices)))
    | .panicked msg => (.panicked msg, w1)

end Queries

/-! ## Run -/

/-- Function `cache.WaitForCacheSync` of client-go, by its contract: the sync
functions are polled, first at once and then once per period; a poll at which
all of them answer true ends the wait with true, and the stop channel found
closed after an unsuccessful poll ends it with false. `stopCh k` tells whether
the channel is closed after poll `k`; `fuel` bounds the number of polls, and
`none` is a wait still blocked when the fuel is spent. -/
def WaitForCacheSync (stopCh : Nat → Bool) (cacheSyncs : List InformerSynced) :
    Nat → Nat → Option Bool
  | 0, _ => none
  | fuel + 1, k =>
    if cacheSyncs.all (fun synced => synced k) then some true
    else if stopCh k then some false
    else WaitForCacheSync stopCh cacheSyncs fuel (k + 1)

/-- An `openlog.Option`, a function on the options of a log call; `none` is
the nil function value. -/
abbrev LogOption := Option String

/-- The logger installed behind `openlog`. `appliesOptions` tells whether it
calls the options a log call hands it, as the logger go-chassis installs does,
or leaves them alone, as the default logger of openlog does. -/
structure Logger where
  appliesOptions : Bool
  deriving DecidableEq, Repr

/-- The call `openlog.Error(msg, opts...)`. A logger that applies its options
calls each of them before it writes the line, and calling a nil option
panics. -/
def openlogError (logger : Logger) (msg : String) (opts : List LogOption) (w : World) :
    Outcome Unit × World :=
  if logger.appliesOptions && opts.any (fun o => o.isNone) then
    (.panicked "invalid memory address or nil pointer dereference", w)
  else (.returned (), w.emit (.log .Error msg))

/-- Method `Run`. It declares no result: what the caller receives is the unit
value. On a wait that was stopped it hands the message and a nil option to
`openlog.Error`. -/
def Run (logger : Logger) (fuel : Nat) (stop : Nat → Bool) (w : World) :
    Option (Outcome Unit × World) :=
  let w1 := w.emit (.log .Info "Starting Discovery Controller")
  match WaitForCacheSync stop
      [w.dc.sListerSynced, w.dc.eListerSynced, w.dc.pListerSynced] fuel 0 with
  | none => none
  | some false =>
    match openlogError logger "Time out waiting for caches to sync" [none] w1 with
    | (.returned _, w2) => some (.returned (), w2)
    | (.panicked msg, w2) => some (.panicked msg, w2)
  | some true =>
    some (.returned (), w1.emit (.log .Info "Finish Waiting For Cache Sync"))

/-- All three caches of the controller answer synced at poll `k`. -/
def allSynced (dc : DiscoveryController) (k : Nat) : Bool :=
  [dc.sListerSynced, dc.eListerSynced, dc.pListerSynced].all (fun synced => synced k)

/-! ## What the properties speak of -/

section Specification

variable {PM MS : Type}

/-- The instance an address entry contributes, if any: its target pod resolves
in the pod lister and the labels of the pod contain the selector. -/
def resolved (env : Env PM MS) (tags : Tags) (ep : Endpoints) (w : World)
    (ss : EndpointSubset) (as : EndpointAddress) : Option (MicroServiceInstance PM) :=
  match as.TargetRef with
  | none => none
  | some ref =>
    match w.dc.pLister w.stores ref.Namespace ref.Name with
    | .error _ => none
    | .ok pod => if env.IsSubsetOf tags pod.Labels then some (newInstance env ep ss as pod)
      else none

/-- One instance per contributing address entry, subsets in order and within
each subset addresses in order. -/
def expectedInstances (env : Env PM MS) (tags : Tags) (ep : Endpoints) (w : World) :
    List (MicroServiceInstance PM) :=
  ep.Subsets.flatMap (fun ss => ss.Addresses.filterMap (resolved env tags ep w ss))

/-- Every address entry of `ep` carries a target reference. -/
def allTargeted (ep : Endpoints) : Prop :=
  ∀ ss ∈ ep.Subsets, ∀ as ∈ ss.Addresses, as.TargetRef ≠ none

/-- The target pod of an address entry exists in the pod store. -/
def podExists (w : World) (as : EndpointAddress) : Bool :=
  match as.TargetRef with
  | none => false
  | some ref =>
    match w.dc.pLister w.stores ref.Namespace ref.Name with
    | .error _ => false
    | .ok _ => true

/-- All address entries of `ep`, subsets in order. -/
def addressEntries (ep : Endpoints) : List EndpointAddress :=
  ep.Subsets.flatMap (fun ss => ss.Addresses)

end Specification

/-! ## Cache-backed listers and a concrete environment -/

/-- An endpoints lister answering from the store, by namespace and name. -/
def cacheEndpointsLister : EndpointsLister := fun st ns name =>
  match st.endpoints.find? (fun e => e.Namespace == ns && e.Name == name) with
  | some e => .ok e
  | none => .error ("endpoints not found: " ++ name)

/-- A pod lister answering from the store, by namespace and name. -/
def cachePodLister : PodLister := fun st ns name =>
  match st.pods.find? (fun p => p.Namespace == ns && p.Name == name) with
  | some p => .ok p
  | none => .error ("pod not found: " ++ name)

/-- A service lister answering from the store; it lists every service. -/
def cacheServiceLister : ServiceLister := fun st _ => .ok st.services

/-- A service lister whose `List` fails. -/
def brokenServiceLister : ServiceLister := fun _ _ => .error "cache unavailable"

/-- A controller over the cache-backed listers whose caches never sync. -/
def cacheController : DiscoveryController :=
  { client := 0
    sLister := cacheServiceLister
    eLister := cacheEndpointsLister
    pLister := cachePodLister
    sListerSynced := fun _ => false
    eListerSynced := fun _ => false
    pListerSynced := fun _ => false }

/-- A controller over the cache-backed listers whose caches are synced. -/
def syncedController : DiscoveryController :=
  { cacheController with
    sListerSynced := fun _ => true
    eListerSynced := fun _ => true
    pListerSynced := fun _ => true }

/-- A concrete environment: every key lies in namespace default, the protocol
map of an address is its IP with the port names, a service is rendered by its
name, and a selector is contained in a label map that has each of its pairs. -/
def sampleEnv : Env (String × List String) String :=
  { splitServiceKey := fun key => (key, "default")
    toProtocolMap := fun as ports => (as.IP, ports.map (fun p => p.Name))
    toMicroService := fun s => s.Name
    IsSubsetOf := fun t labels => t.KV.all (fun kv => labels.lookup kv.1 == some kv.2)
    formatServices := fun l => String.intercalate "," (l.map (fun s => s.Name)) }

/-- The default logger of openlog: it leaves the options of a call alone. -/
def defaultLogger : Logger := ⟨false⟩

/-- A logger that applies the options of a call, as the one go-chassis
installs. -/
def chassisLogger : Logger := ⟨true⟩

/-- Pod p1, labelled app x. -/
def podP1 : Pod := ⟨"p1", "default", "uid-1", [("app", "x")]⟩

/-- Pod p2, labelled app y. -/
def podP2 : Pod := ⟨"p2", "default", "uid-2", [("app", "y")]⟩

/-- An address entry naming the pod `name` of namespace default. -/
def addressOf (ip name : String) : EndpointAddress :=
  ⟨ip, name, some ⟨"default", name⟩⟩

/-- An address entry without target reference. -/
def bareAddress : EndpointAddress := ⟨"10.0.0.9", "", none⟩

/-- An endpoints object with one subset holding the given addresses. -/
def endpointsOf (addrs : List EndpointAddress) : Endpoints :=
  ⟨"web", "default", [⟨addrs, [⟨"http", 80, "TCP"⟩]⟩]⟩

/-- A world over the cache-backed listers with the given endpoints object and
pods p1 and p2 in the stores. -/
def worldOf (ep : Endpoints) : World :=
  { dc := cacheController
    stores := ⟨[⟨"web", "default", []⟩], [ep], [podP1, podP2]⟩
    trace := [] }

/-! ## Frame lemmas -/

section Proofs

variable {PM MS : Type}

@[simp] theorem emit_dc (w : World) (e : Event) : (w.emit e).dc = w.dc := rfl

@[simp] theorem emit_stores (w : World) (e : Event) : (w.emit e).stores = w.stores := rfl

@[simp] theorem emit_trace (w : World) (e : Event) : (w.emit e).trace = w.trace ++ [e] := rfl

theorem resolved_congr (env : Env PM MS) (tags : Tags) (ep : Endpoints) (w v : World)
    (hdc : v.dc = w.dc) (hst : v.stores = w.stores) (ss : EndpointSubset) :
    resolved env tags ep v ss = resolved env tags ep w ss := by
  funext as
  simp only [resolved, hdc, hst]

theorem addressLoop_frame (env : Env PM MS) (tags : Tags) (ep : Endpoints)
    (ss : EndpointSubset) (l : List EndpointAddress) :
    ∀ (ins : List (MicroServiceInstance PM)) (w : World),
      (addressLoop env tags ep ss l ins w).2.dc = w.dc ∧
      (addressLoop env tags ep ss l ins w).2.stores = w.stores := by
  induction l with
  | nil => intro ins w; simp [addressLoop]
  | cons as rest ih =>
    intro ins w
    unfold addressLoop
    cases hr : as.TargetRef with
    | none => simp
    | some ref =>
      simp only
      cases hp : w.dc.pLister w.stores ref.Namespace ref.Name with
      | error e =>
        simp only
        have h := ih ins ((w.emit (.podsGet ref.Namespace ref.Name)).emit
          (.log .Warn ("error list pods: " ++ ref.Name)))
        simpa using h
      | ok pod =>
        simp only
        split
        · simpa using ih ins (w.emit (.podsGet ref.Namespace ref.Name))
        · simpa using ih (ins ++ [newInstance env ep ss as pod])
            (w.emit (.podsGet ref.Namespace ref.Name))

theorem addressLoop_returned (env : Env PM MS) (tags : Tags) (ep : Endpoints)
    (ss : EndpointSubset) (l : List EndpointAddress) :
    ∀ (ins r : List (MicroServiceInstance PM)) (w : World),
      (addressLoop env tags ep ss l ins w).1 = .returned r →
      r = ins ++ l.filterMap (resolved env tags ep w ss) := by
  induction l with
  | nil =>
    intro ins r w h
    simp only [addressLoop, Outcome.returned.injEq] at h
    simp [h]
  | cons as rest ih =>
    intro ins r w
    unfold addressLoop
    cases hr : as.TargetRef with
    | none => simp
    | some ref =>
      simp only
      cases hp : w.dc.pLister w.stores ref.Namespace ref.Name with
      | error e =>
        simp only
        intro h
        have h1 := ih ins r _ h
        rw [resolved_congr env tags ep w _ (by simp) (by simp)] at h1
        have hnone : resolved env tags ep w ss as = none := by simp [resolved, hr, hp]
        simp [List.filterMap_cons, hnone, h1]
      | ok pod =>
        simp only
        split
        · rename_i hsub
          intro h
          have h1 := ih ins r _ h
          rw [resolved_congr env tags ep w _ (by simp) (by simp)] at h1
          have hnone : resolved env tags ep w ss as = none := by
            simp only [resolved, hr, hp]
            simp at hsub
            simp [hsub]
          simp [List.filterMap_cons, hnone, h1]
        · rename_i hsub
          intro h
          have h1 := ih _ r _ h
          rw [resolved_congr env tags ep w _ (by simp) (by simp)] at h1
          have hsome : resolved env tags ep w ss as = some (newInstance env ep ss as pod) := by
            simp only [resolved, hr, hp]
            simp at hsub
            simp [hsub]
          simp [List.filterMap_cons, hsome, h1]

theorem addressLoop_total (env : Env PM MS) (tags : Tags) (ep : Endpoints)
    (ss : EndpointSubset) (l : List EndpointAddress) :
    ∀ (ins : List (MicroServiceInstance PM)) (w : World),
      (∀ as ∈ l, as.TargetRef ≠ none) →
      ∃ r, (addressLoop env tags ep ss l ins w).1 = .returned r := by
  induction l with
  | nil => intro ins w _; exact ⟨ins, by simp [addressLoop]⟩
  | cons as rest ih =>
    intro ins w hall
    have hrest : ∀ a ∈ rest, a.TargetRef ≠ none := fun a ha =>
      hall a (List.mem_cons_of_mem _ ha)
    unfold addressLoop
    cases hr : as.TargetRef with
    | none => exact absurd hr (hall as (List.mem_cons_self _ _))
    | some ref =>
      simp only
      cases hp : w.dc.pLister w.stores ref.Namespace ref.Name with
      | error e => exact ih _ _ hrest
      | ok pod =>
        simp only
        split
        · exact ih _ _ hrest
        · exact ih _ _ hrest

theorem subsetLoop_frame (env : Env PM MS) (tags : Tags) (ep : Endpoints)
    (l : List EndpointSubset) :
    ∀ (ins : List (MicroServiceInstance PM)) (w : World),
      (subsetLoop env tags ep l ins w).2.dc = w.dc ∧
      (subsetLoop env tags ep l ins w).2.stores = w.stores := by
  induction l with
  | nil => intro ins w; simp [subsetLoop]
  | cons ss rest ih =>
    intro ins w
    unfold subsetLoop
    have hf := addressLoop_frame env tags ep ss ss.Addresses ins w
    cases ha : addressLoop env tags ep ss ss.Addresses ins w with
    | mk o w1 =>
      rw [ha] at hf
      cases o with
      | returned ins1 =>
        simp only
        have h := ih ins1 w1
        exact ⟨h.1.trans hf.1, h.2.trans hf.2⟩
      | panicked msg => exact hf

theorem subsetLoop_returned (env : Env PM MS) (tags : Tags) (ep : Endpoints)
    (l : List EndpointSubset) :
    ∀ (ins r : List (MicroServiceInstance PM)) (w : World),
      (subsetLoop env tags ep l ins w).1 = .returned r →
      r = ins ++ l.flatMap (fun ss => ss.Addresses.filterMap (resolved env tags ep w ss)) := by
  induction l with
  | nil =>
    intro ins r w h
    simp only [subsetLoop, Outcome.returned.injEq] at h
    simp [h]
  | cons ss rest ih =>
    intro ins r w
    unfold subsetLoop
    have hf := addressLoop_frame env tags ep ss ss.Addresses ins w
    have hr := addressLoop_returned env tags ep ss ss.Addresses ins
    cases ha : addressLoop env tags ep ss ss.Addresses ins w with
    | mk o w1 =>
      rw [ha] at hf
      cases o with
      | returned ins1 =>
        simp only
        intro h
        have h1 := ih ins1 r w1 h
        have h2 := hr ins1 w (by rw [ha])
        have hc : (fun (ss : EndpointSubset) =>
              ss.Addresses.filterMap (resolved env tags ep w1 ss)) =
            (fun ss => ss.Addresses.filterMap (resolved env tags ep w ss)) := by
          funext s
          rw [resolved_congr env tags ep w w1 hf.1 hf.2]
        rw [hc] at h1
        rw [h1, h2]
        simp [List.flatMap_cons]
      | panicked msg => simp

theorem subsetLoop_total (env : Env PM MS) (tags : Tags) (ep : Endpoints)
    (l : List EndpointSubset) :
    ∀ (ins : List (MicroServiceInstance PM)) (w : World),
      (∀ ss ∈ l, ∀ as ∈ ss.Addresses, as.TargetRef ≠ none) →
      ∃ r, (subsetLoop env tags ep l ins w).1 = .returned r := by
  induction l with
  | nil => intro ins w _; exact ⟨ins, by simp [subsetLoop]⟩
  | cons ss rest ih =>
    intro ins w hall
    unfold subsetLoop
    obtain ⟨r1, hr1⟩ := addressLoop_total env tags ep ss ss.Addresses ins w
      (hall ss (List.mem_cons_self _ _))
    cases ha : addressLoop env tags ep ss ss.Addresses ins w with
    | mk o w1 =>
      rw [ha] at hr1
      simp only at hr1
      subst hr1
      simp only
      exact ih r1 w1 (fun s hs => hall s (List.mem_cons_of_mem _ hs))

/-- When the endpoints object is found, a call of `FindEndpoints` that returns
hands back the expected instances and a nil error. -/
theorem FindEndpoints_found_returned (env : Env PM MS) (service : String) (tags : Tags)
    (w : World) (ep : Endpoints)
    (hfound : w.dc.eLister w.stores (env.splitServiceKey service).2
      (env.splitServiceKey service).1 = .ok ep)
    (r : Option (List (MicroServiceInstance PM)) × Option Error)
    (hret : (FindEndpoints env service tags w).1 = .returned r) :
    r = (some (expectedInstances env tags ep w), none) := by
  unfold FindEndpoints at hret
  simp only [hfound] at hret
  have hr := subsetLoop_returned env tags ep ep.Subsets []
  cases hs : subsetLoop env tags ep ep.Subsets []
      (w.emit (.endpointsGet (env.splitServiceKey service).2
        (env.splitServiceKey service).1)) with
  | mk o w2 =>
    rw [hs] at hret
    cases o with
    | returned ins =>
      simp only [Outcome.returned.injEq] at hret
      have h := hr ins _ (by rw [hs])
      have hc : (fun (ss : EndpointSubset) => ss.Addresses.filterMap
            (resolved env tags ep (w.emit (.endpointsGet (env.splitServiceKey service).2
              (env.splitServiceKey service).1)) ss)) =
          (fun ss => ss.Addresses.filterMap (resolved env tags ep w ss)) := by
        funext s
        rw [resolved_congr env tags ep w _ (by simp) (by simp)]
      rw [hc] at h
      rw [← hret, h]
      simp [expectedInstances]
    | panicked msg => simp at hret

/-- When the endpoints object is found and every address entry carries a
target reference, `FindEndpoints` returns. -/
theorem FindEndpoints_found_total (env : Env PM MS) (service : String) (tags : Tags)
    (w : World) (ep : Endpoints)
    (hfound : w.dc.eLister w.stores (env.splitServiceKey service).2
      (env.splitServiceKey service).1 = .ok ep)
    (hall : allTargeted ep) :
    (FindEndpoints env service tags w).1 =
      .returned (some (expectedInstances env tags ep w), none) := by
  have hex : ∃ r, (FindEndpoints env service tags w).1 = .returned r := by
    unfold FindEndpoints
    simp only [hfound]
    obtain ⟨r, hr⟩ := subsetLoop_total env tags ep ep.Subsets []
      (w.emit (.endpointsGet (env.splitServiceKey service).2
        (env.splitServiceKey service).1)) hall
    cases hs : subsetLoop env tags ep ep.Subsets []
        (w.emit (.endpointsGet (env.splitServiceKey service).2
          (env.splitServiceKey service).1)) with
    | mk o w2 =>
      rw [hs] at hr
      simp only at hr
      subst hr
      exact ⟨_, rfl⟩
  obtain ⟨r, hr⟩ := hex
  rw [hr, FindEndpoints_found_returned env service tags w ep hfound r hr]

/-- The frame of `FindEndpoints`: controller and stores are left as they were. -/
theorem FindEndpoints_frame (env : Env PM MS) (service : String) (tags : Tags) (w : World) :
    (FindEndpoints env service tags w).2.dc = w.dc ∧
    (FindEndpoints env service tags w).2.stores = w.stores := by
  unfold FindEndpoints
  cases hg : w.dc.eLister w.stores (env.splitServiceKey service).2
      (env.splitServiceKey service).1 with
  | error err => simp [hg]
  | ok ep =>
    simp only [hg]
    have hf := subsetLoop_frame env tags ep ep.Subsets []
      (w.emit (.endpointsGet (env.splitServiceKey service).2
        (env.splitServiceKey service).1))
    cases hs : subsetLoop env tags ep ep.Subsets []
        (w.emit (.endpointsGet (env.splitServiceKey service).2
          (env.splitServiceKey service).1)) with
    | mk o w2 =>
      rw [hs] at hf
      cases o with
      | returned ins => simpa using hf
      | panicked msg => simpa using hf

/-- What `resolved` yields, spelled out. -/
theorem resolved_eq_some (env : Env PM MS) (tags : Tags) (ep : Endpoints) (w : World)
    (ss : EndpointSubset) (as : EndpointAddress) (inst : MicroServiceInstance PM) :
    resolved env tags ep w ss as = some inst ↔
      ∃ ref pod, as.TargetRef = some ref ∧
        w.dc.pLister w.stores ref.Namespace ref.Name = .ok pod ∧
        env.IsSubsetOf tags pod.Labels = true ∧ inst = newInstance env ep ss as pod := by
  unfold resolved
  cases hr : as.TargetRef with
  | none => simp
  | some ref =>
    simp only
    cases hp : w.dc.pLister w.stores ref.Namespace ref.Name with
    | error e =>
      constructor
      · intro h; cases h
      · rintro ⟨ref1, pod, h1, h2, _, _⟩
        cases h1
        rw [hp] at h2
        cases h2
    | ok pod =>
      by_cases hsub : env.IsSubsetOf tags pod.Labels = true
      · simp only [hsub, if_true, Option.some.injEq]
        constructor
        · intro h
          exact ⟨ref, pod, rfl, hp, hsub, h.symm⟩
        · rintro ⟨ref1, pod1, h1, h2, _, h4⟩
          cases h1
          rw [hp] at h2
          cases h2
          exact h4.symm
      · simp only [hsub]
        constructor
        · intro h; simp at h
        · rintro ⟨ref1, pod1, h1, h2, h3, _⟩
          cases h1
          rw [hp] at h2
          cases h2
          exact absurd h3 hsub

/-- With a selector every resolvable pod satisfies, an address entry contributes
exactly when its target pod exists. -/
theorem resolved_isSome (env : Env PM MS) (tags : Tags) (ep : Endpoints) (w : World)
    (hsel : ∀ ns name pod, w.dc.pLister w.stores ns name = .ok pod →
      env.IsSubsetOf tags pod.Labels = true)
    (ss : EndpointSubset) (as : EndpointAddress) :
    (resolved env tags ep w ss as).isSome = podExists w as := by
  unfold resolved podExists
  cases hr : as.TargetRef with
  | none => rfl
  | some ref =>
    simp only
    cases hp : w.dc.pLister w.stores ref.Namespace ref.Name with
    | error e => rfl
    | ok pod => simp [hsel _ _ _ hp]

theorem length_filterMap_eq_countP {α β : Type} (f : α → Option β) (p : α → Bool)
    (h : ∀ a, (f a).isSome = p a) (l : List α) :
    (l.filterMap f).length = l.countP p := by
  induction l with
  | nil => rfl
  | cons a rest ih =>
    have ha := h a
    cases hf : f a with
    | none =>
      rw [hf] at ha
      simp [List.filterMap_cons, hf, List.countP_cons, ← ha, ih]
    | some b =>
      rw [hf] at ha
      simp [List.filterMap_cons, hf, List.countP_cons, ← ha, ih]

/-- With a selector every resolvable pod satisfies, there are as many expected
instances as address entries whose target pod exists. -/
theorem expectedInstances_length (env : Env PM MS) (tags : Tags) (ep : Endpoints)
    (w : World)
    (hsel : ∀ ns name pod, w.dc.pLister w.stores ns name = .ok pod →
      env.IsSubsetOf tags pod.Labels = true) :
    (expectedInstances env tags ep w).length = (addressEntries ep).countP (podExists w) := by
  unfold expectedInstances addressEntries
  induction ep.Subsets with
  | nil => rfl
  | cons ss rest ih =>
    simp only [List.flatMap_cons, List.length_append, List.countP_append, ih]
    rw [length_filterMap_eq_countP _ _ (resolved_isSome env tags ep w hsel ss)]

/-- Where an expected instance comes from. -/
theorem mem_expectedInstances (env : Env PM MS) (tags : Tags) (ep : Endpoints) (w : World)
    (inst : MicroServiceInstance PM) (h : inst ∈ expectedInstances env tags ep w) :
    ∃ ss ∈ ep.Subsets, ∃ as ∈ ss.Addresses, ∃ ref pod,
      as.TargetRef = some ref ∧
      w.dc.pLister w.stores ref.Namespace ref.Name = .ok pod ∧
      env.IsSubsetOf tags pod.Labels = true ∧ inst = newInstance env ep ss as pod := by
  unfold expectedInstances at h
  rw [List.mem_flatMap] at h
  obtain ⟨ss, hss, hin⟩ := h
  rw [List.mem_filterMap] at hin
  obtain ⟨as, has, hres⟩ := hin
  exact ⟨ss, hss, as, has, (resolved_eq_some env tags ep w ss as inst).1 hres⟩

theorem count_le_countP_filterMap {α β : Type} [DecidableEq α] (f : α → Option β)
    (q : β → Bool) (a : α) (b : β) (hf : f a = some b) (hq : q b = true) (l : List α) :
    l.count a ≤ (l.filterMap f).countP q := by
  induction l with
  | nil => simp
  | cons x rest ih =>
    by_cases hx : x = a
    · subst hx
      simp only [List.count_cons_self, List.filterMap_cons, hf, List.countP_cons, hq]
      simpa using ih
    · have hxa : (x == a) = false := by simpa using hx
      rw [List.count_cons, hxa]
      cases hfx : f x with
      | none => simpa [List.filterMap_cons, hfx] using ih
      | some y =>
        simp only [List.filterMap_cons, hfx, List.countP_cons]
        simp only [Bool.false_eq_true, if_false, Nat.add_zero]
        exact Nat.le_trans ih (Nat.le_add_right _ _)

theorem countP_le_countP_flatMap {α β : Type} (g : α → List β) (q : β → Bool) (a : α)
    (l : List α) (ha : a ∈ l) : (g a).countP q ≤ (l.flatMap g).countP q := by
  induction l with
  | nil => cases ha
  | cons x rest ih =>
    simp only [List.flatMap_cons, List.countP_append]
    rcases List.mem_cons.1 ha with h | h
    · subst h
      exact Nat.le_add_right _ _
    · exact Nat.le_trans (ih h) (Nat.le_add_left _ _)

/-- The fill loop writes the services, in order, into the slots that follow
the first `pre.length` ones. -/
theorem fillLoop_spec (env : Env PM MS) (l : List Service) :
    ∀ (pre post : List (Option MS)),
      fillLoop env l pre.length (pre ++ List.replicate l.length none ++ post) =
        .returned (pre ++ l.map (fun s => some (env.toMicroService s)) ++ post) := by
  induction l with
  | nil => intro pre post; simp [fillLoop]
  | cons s rest ih =>
    intro pre post
    have hlt : pre.length <
        (pre ++ List.replicate (s :: rest).length none ++ post).length := by
      simp only [List.length_append, List.length_replicate, List.length_cons]
      omega
    have hset : (pre ++ List.replicate (s :: rest).length none ++ post).set pre.length
        (some (env.toMicroService s)) =
        (pre ++ [some (env.toMicroService s)]) ++ List.replicate rest.length none ++ post := by
      simp [List.replicate_succ, List.append_assoc]
    unfold fillLoop setIndex
    simp only [hlt, if_true, hset]
    have h := ih (pre ++ [some (env.toMicroService s)]) post
    simp only [List.length_append, List.length_singleton] at h
    rw [h]
    simp [List.append_assoc]

/-- On a listing that succeeded, `GetAllServices` maps the services in order. -/
theorem GetAllServices_listed (env : Env PM MS) (w : World) (l : List Service)
    (h : w.dc.sLister w.stores Everything = .ok l) :
    (GetAllServices env w).1 =
      .returned (some (l.map (fun s => some (env.toMicroService s))), none) := by
  have hfill := fillLoop_spec env l [] []
  simp only [List.length_nil, List.nil_append, List.append_nil] at hfill
  unfold GetAllServices
  simp only [h, hfill]

/-- The frame of `GetAllServices`: controller and stores are left as they
were. -/
theorem GetAllServices_frame (env : Env PM MS) (w : World) :
    (GetAllServices env w).2.dc = w.dc ∧ (GetAllServices env w).2.stores = w.stores := by
  unfold GetAllServices
  cases hl : w.dc.sLister w.stores Everything with
  | error err => simp [hl]
  | ok l =>
    simp only [hl]
    cases fillLoop env l 0 (List.replicate l.length none) with
    | returned ms => simp
    | panicked msg => simp

end Proofs

/-! ## The readiness wait -/

/-- A wait whose polls from `k` on stay unsynced with the channel open until
poll `s` ends at poll `s`, given fuel for it: with true when the caches are
synced there, with false when they are not and the channel is closed. -/
theorem WaitForCacheSync_at (stopCh : Nat → Bool) (cacheSyncs : List InformerSynced)
    (s : Nat) :
    ∀ (fuel k : Nat), k ≤ s → s < k + fuel →
      (∀ j, k ≤ j → j < s → cacheSyncs.all (fun synced => synced j) = false ∧
        stopCh j = false) →
      (cacheSyncs.all (fun synced => synced s) = true →
        WaitForCacheSync stopCh cacheSyncs fuel k = some true) ∧
      (cacheSyncs.all (fun synced => synced s) = false → stopCh s = true →
        WaitForCacheSync stopCh cacheSyncs fuel k = some false) := by
  intro fuel
  induction fuel with
  | zero => intro k h1 h2; omega
  | succ fuel ih =>
    intro k hks hfuel hbefore
    rcases Nat.eq_or_lt_of_le hks with heq | hlt
    · subst heq
      constructor
      · intro hs
        simp [WaitForCacheSync, hs]
      · intro hs hstop
        simp [WaitForCacheSync, hs, hstop]
    · have hk := hbefore k (Nat.le_refl k) hlt
      have hrec := ih (k + 1) hlt (by omega)
        (fun j hj hjs => hbefore j (by omega) hjs)
      unfold WaitForCacheSync
      simp only [hk.1, hk.2, Bool.false_eq_true, if_false]
      exact hrec

/-! ## The event handlers -/

/-- On the object kind its informer delivers, a handler logs the name of the
object and returns. -/
theorem handlers_return (svc : Service) (ep : Endpoints) (w : World) :
    addService (.service svc) w =
      (.returned (), w.emit (.log .Info ("Add Service: " ++ svc.Name))) ∧
    addEndpoints (.endpoints ep) w =
      (.returned (), w.emit (.log .Info ("Add Endpoint: " ++ ep.Name))) :=
  ⟨rfl, rfl⟩

/-! ## Properties of FindEndpoints -/

section Claims

variable {PM MS : Type}

/-- C1: when the endpoints lister fails for the namespace and name that
`splitServiceKey` gives, `FindEndpoints` returns a nil list with that same
error, and the only lister call it makes is that endpoints lookup: no pod is
looked up. -/
theorem FindEndpoints_endpoints_error (env : Env PM MS) (service : String) (tags : Tags)
    (w : World) (err : Error)
    (hfail : w.dc.eLister w.stores (env.splitServiceKey service).2
      (env.splitServiceKey service).1 = .error err) :
    (FindEndpoints env service tags w).1 = .returned (none, some err) ∧
    (FindEndpoints env service tags w).2.trace =
      w.trace ++ [.endpointsGet (env.splitServiceKey service).2
        (env.splitServiceKey service).1] ∧
    ∀ ns name, Event.podsGet ns name ∉
      (FindEndpoints env service tags w).2.trace.drop w.trace.length := by
  unfold FindEndpoints
  simp [hfail]

/-- C1 at a service key absent from the endpoints store. -/
theorem FindEndpoints_endpoints_error_witness :
    cacheEndpointsLister (worldOf (endpointsOf [])).stores "default" "missing" =
      .error "endpoints not found: missing" ∧
    (FindEndpoints sampleEnv "missing" ⟨[], ""⟩ (worldOf (endpointsOf []))).1 =
      .returned (none, some "endpoints not found: missing") :=
  ⟨rfl, (FindEndpoints_endpoints_error sampleEnv "missing" ⟨[], ""⟩
    (worldOf (endpointsOf [])) "endpoints not found: missing" rfl).1⟩

/-- C2, at an endpoints object that is found and whose second address entry has
no target reference: `FindEndpoints` panics, so it returns neither a nil error
nor an instance list, although both other address entries name pods of the
store. -/
theorem FindEndpoints_aborts_on_bare_address :
    cacheEndpointsLister
      (worldOf (endpointsOf
        [addressOf "10.0.0.1" "p1", bareAddress, addressOf "10.0.0.2" "p2"])).stores
      "default" "web" =
      .ok (endpointsOf [addressOf "10.0.0.1" "p1", bareAddress, addressOf "10.0.0.2" "p2"]) ∧
    (FindEndpoints sampleEnv "web" ⟨[], ""⟩
      (worldOf (endpointsOf
        [addressOf "10.0.0.1" "p1", bareAddress, addressOf "10.0.0.2" "p2"]))).1 =
      .panicked "invalid memory address or nil pointer dereference" ∧
    ¬ ∃ l, (FindEndpoints sampleEnv "web" ⟨[], ""⟩
      (worldOf (endpointsOf
        [addressOf "10.0.0.1" "p1", bareAddress, addressOf "10.0.0.2" "p2"]))).1 =
      .returned (some l, none) := by
  refine ⟨rfl, rfl, ?_⟩
  rintro ⟨l, hl⟩
  have hp : (FindEndpoints sampleEnv "web" ⟨[], ""⟩
      (worldOf (endpointsOf
        [addressOf "10.0.0.1" "p1", bareAddress, addressOf "10.0.0.2" "p2"]))).1 =
      .panicked "invalid memory address or nil pointer dereference" := rfl
  rw [hp] at hl
  cases hl

/-- C3: for a found endpoints object the list `FindEndpoints` returns is
exactly `expectedInstances`: one instance for each address entry, subsets in
order and addresses in order, whose target pod resolves in the pod lister and
whose pod labels contain the selector, and no other instance. This holds of
every call that returns, and the call does return whenever every address entry
carries a target reference. -/
theorem FindEndpoints_exact (env : Env PM MS) (service : String) (tags : Tags)
    (w : World) (ep : Endpoints)
    (hfound : w.dc.eLister w.stores (env.splitServiceKey service).2
      (env.splitServiceKey service).1 = .ok ep) :
    (∀ r, (FindEndpoints env service tags w).1 = .returned r →
      r = (some (expectedInstances env tags ep w), none)) ∧
    (allTargeted ep → (FindEndpoints env service tags w).1 =
      .returned (some (expectedInstances env tags ep w), none)) :=
  ⟨fun r hr => FindEndpoints_found_returned env service tags w ep hfound r hr,
    fun hall => FindEndpoints_found_total env service tags w ep hfound hall⟩

/-- C3 at pods p1 (app x) and p2 (app y), one endpoints object referencing
both, selector app x: exactly the instance derived from p1. -/
theorem FindEndpoints_exact_witness :
    cacheEndpointsLister
      (worldOf (endpointsOf [addressOf "10.0.0.1" "p1", addressOf "10.0.0.2" "p2"])).stores
      "default" "web" =
      .ok (endpointsOf [addressOf "10.0.0.1" "p1", addressOf "10.0.0.2" "p2"]) ∧
    (FindEndpoints sampleEnv "web" ⟨[("app", "x")], ""⟩
      (worldOf (endpointsOf [addressOf "10.0.0.1" "p1", addressOf "10.0.0.2" "p2"]))).1 =
      .returned (some [⟨"uid-1", "web.default", "p1", ("10.0.0.1", ["http"])⟩], none) :=
  ⟨rfl, (FindEndpoints_exact sampleEnv "web" ⟨[("app", "x")], ""⟩
    (worldOf (endpointsOf [addressOf "10.0.0.1" "p1", addressOf "10.0.0.2" "p2"]))
    (endpointsOf [addressOf "10.0.0.1" "p1", addressOf "10.0.0.2" "p2"]) rfl).2
    (by unfold allTargeted; decide)⟩

/-- C4: for a found endpoints object and a selector that every resolvable pod
satisfies, the number of instances `FindEndpoints` returns is the number of
address entries whose target pod exists in the pod store, with a nil error. This
holds of every call that returns, and the call does return whenever every
address entry carries a target reference; in particular three address entries
of which exactly one names a pod absent from the store give exactly two
instances and a nil error. -/
theorem FindEndpoints_count (env : Env PM MS) (service : String) (tags : Tags)
    (w : World) (ep : Endpoints)
    (hfound : w.dc.eLister w.stores (env.splitServiceKey service).2
      (env.splitServiceKey service).1 = .ok ep)
    (hsel : ∀ ns name pod, w.dc.pLister w.stores ns name = .ok pod →
      env.IsSubsetOf tags pod.Labels = true) :
    (∀ r, (FindEndpoints env service tags w).1 = .returned r →
      ∃ l, r = (some l, none) ∧ l.length = (addressEntries ep).countP (podExists w)) ∧
    (allTargeted ep →
      ∃ l, (FindEndpoints env service tags w).1 = .returned (some l, none) ∧
        l.length = (addressEntries ep).countP (podExists w)) ∧
    (allTargeted ep → (addressEntries ep).length = 3 →
      (addressEntries ep).countP (fun as => !podExists w as) = 1 →
      ∃ l, (FindEndpoints env service tags w).1 = .returned (some l, none) ∧
        l.length = 2) := by
  have hlen := expectedInstances_length env tags ep w hsel
  refine ⟨?_, ?_, ?_⟩
  · intro r hr
    exact ⟨_, FindEndpoints_found_returned env service tags w ep hfound r hr, hlen⟩
  · intro hall
    exact ⟨_, FindEndpoints_found_total env service tags w ep hfound hall, hlen⟩
  · intro hall h3 h1
    refine ⟨_, FindEndpoints_found_total env service tags w ep hfound hall, ?_⟩
    have hsplit := List.length_eq_countP_add_countP (podExists w) (addressEntries ep)
    have hneg : (addressEntries ep).countP (fun as => ¬ podExists w as = true) = 1 := by
      rw [← h1]
      congr 1
      funext as
      cases podExists w as <;> simp
    rw [hlen]
    omega

/-- C4 at three address entries naming p1, the absent p3 and p2, under the
empty selector: two instances and a nil error. -/
theorem FindEndpoints_count_witness :
    ∃ l, (FindEndpoints sampleEnv "web" ⟨[], ""⟩
      (worldOf (endpointsOf
        [addressOf "10.0.0.1" "p1", addressOf "10.0.0.3" "p3",
          addressOf "10.0.0.2" "p2"]))).1 = .returned (some l, none) ∧ l.length = 2 :=
  (FindEndpoints_count sampleEnv "web" ⟨[], ""⟩
    (worldOf (endpointsOf
      [addressOf "10.0.0.1" "p1", addressOf "10.0.0.3" "p3", addressOf "10.0.0.2" "p2"]))
    (endpointsOf
      [addressOf "10.0.0.1" "p1", addressOf "10.0.0.3" "p3", addressOf "10.0.0.2" "p2"])
    rfl (fun _ _ _ _ => rfl)).2.2 (by unfold allTargeted; decide) rfl rfl

/-- C5, at a found endpoints object whose only address entry carries no target
reference: `FindEndpoints` does not complete by returning a value, it panics
on reading the namespace of the nil reference. -/
theorem FindEndpoints_panics_on_nil_targetRef :
    cacheEndpointsLister (worldOf (endpointsOf [bareAddress])).stores "default" "web" =
      .ok (endpointsOf [bareAddress]) ∧
    (FindEndpoints sampleEnv "web" ⟨[], ""⟩ (worldOf (endpointsOf [bareAddress]))).1 =
      .panicked "invalid memory address or nil pointer dereference" :=
  ⟨rfl, rfl⟩

/-- C10: every instance `FindEndpoints` returns for a found endpoints object
`ep` is built from `ep`, an address entry `as` of a subset `ss` of `ep` and the
pod resolved for `as`: the instance id is the pod UID, the service id is the
name of `ep`, a dot and its namespace, the host name is that of `as` and the
endpoints map is `toProtocolMap as ss.Ports`. So all instances of a call share
one service id, and an address entry occurring twice in a subset, with a pod
that resolves and satisfies the selector, gives at least two instances with
the UID of that pod. The call returns whenever every address entry carries a
target reference. -/
theorem FindEndpoints_provenance (env : Env PM MS) (service : String) (tags : Tags)
    (w : World) (ep : Endpoints)
    (hfound : w.dc.eLister w.stores (env.splitServiceKey service).2
      (env.splitServiceKey service).1 = .ok ep) :
    (allTargeted ep → ∃ l, (FindEndpoints env service tags w).1 = .returned (some l, none)) ∧
    (∀ r, (FindEndpoints env service tags w).1 = .returned r →
      ∃ l, r = (some l, none) ∧
        (∀ inst ∈ l, ∃ ss ∈ ep.Subsets, ∃ as ∈ ss.Addresses, ∃ ref pod,
          as.TargetRef = some ref ∧
          w.dc.pLister w.stores ref.Namespace ref.Name = .ok pod ∧
          inst.InstanceID = pod.UID ∧
          inst.ServiceID = ep.Name ++ "." ++ ep.Namespace ∧
          inst.HostName = as.Hostname ∧
          inst.EndpointsMap = env.toProtocolMap as ss.Ports) ∧
        (∀ i ∈ l, ∀ j ∈ l, i.ServiceID = j.ServiceID) ∧
        (∀ ss ∈ ep.Subsets, ∀ as ref pod, as.TargetRef = some ref →
          w.dc.pLister w.stores ref.Namespace ref.Name = .ok pod →
          env.IsSubsetOf tags pod.Labels = true →
          2 ≤ ss.Addresses.count as →
          2 ≤ l.countP (fun i => i.InstanceID == pod.UID))) := by
  refine ⟨fun hall => ⟨_, FindEndpoints_found_total env service tags w ep hfound hall⟩, ?_⟩
  intro r hr
  refine ⟨_, FindEndpoints_found_returned env service tags w ep hfound r hr, ?_, ?_, ?_⟩
  · intro inst hin
    obtain ⟨ss, hss, as, has, ref, pod, h1, h2, _, h4⟩ :=
      mem_expectedInstances env tags ep w inst hin
    exact ⟨ss, hss, as, has, ref, pod, h1, h2, by rw [h4]; rfl, by rw [h4]; rfl,
      by rw [h4]; rfl, by rw [h4]; rfl⟩
  · intro i hi j hj
    obtain ⟨_, _, _, _, _, _, _, _, _, h4⟩ := mem_expectedInstances env tags ep w i hi
    obtain ⟨_, _, _, _, _, _, _, _, _, h5⟩ := mem_expectedInstances env tags ep w j hj
    rw [h4, h5]
    rfl
  · intro ss hss as ref pod h1 h2 h3 hcount
    have hres : resolved env tags ep w ss as = some (newInstance env ep ss as pod) :=
      (resolved_eq_some env tags ep w ss as _).2 ⟨ref, pod, h1, h2, h3, rfl⟩
    have hq : (fun (i : MicroServiceInstance PM) => i.InstanceID == pod.UID)
        (newInstance env ep ss as pod) = true := by
      simp [newInstance]
    have hA := count_le_countP_filterMap (resolved env tags ep w ss)
      (fun i => i.InstanceID == pod.UID) as _ hres hq ss.Addresses
    have hB := countP_le_countP_flatMap
      (fun (ss : EndpointSubset) => ss.Addresses.filterMap (resolved env tags ep w ss))
      (fun i => i.InstanceID == pod.UID) ss ep.Subsets hss
    unfold expectedInstances
    exact Nat.le_trans hcount (Nat.le_trans hA hB)

/-- C10 at an endpoints object naming p1 twice: the call returns a list with
two instances that carry the UID of p1. -/
theorem FindEndpoints_provenance_witness :
    ∃ l, (FindEndpoints sampleEnv "web" ⟨[], ""⟩
      (worldOf (endpointsOf [addressOf "10.0.0.1" "p1", addressOf "10.0.0.1" "p1"]))).1 =
        .returned (some l, none) ∧
      2 ≤ l.countP (fun i => i.InstanceID == "uid-1") := by
  obtain ⟨l, hl, _, _, htwice⟩ := (FindEndpoints_provenance sampleEnv "web" ⟨[], ""⟩
    (worldOf (endpointsOf [addressOf "10.0.0.1" "p1", addressOf "10.0.0.1" "p1"]))
    (endpointsOf [addressOf "10.0.0.1" "p1", addressOf "10.0.0.1" "p1"]) rfl).2
    (some [⟨"uid-1", "web.default", "p1", ("10.0.0.1", ["http"])⟩,
      ⟨"uid-1", "web.default", "p1", ("10.0.0.1", ["http"])⟩], none) rfl
  refine ⟨l, ?_, ?_⟩
  · rw [← hl]
    rfl
  · exact htwice ⟨[addressOf "10.0.0.1" "p1", addressOf "10.0.0.1" "p1"], [⟨"http", 80, "TCP"⟩]⟩
      (by simp [endpointsOf]) (addressOf "10.0.0.1" "p1") ⟨"default", "p1"⟩ podP1 rfl rfl rfl
      (by decide)

/-! ## Properties of GetAllServices -/

/-- C6: when the service lister fails to list, `GetAllServices` returns a nil
list with that same error: no partial result accompanies an error. -/
theorem GetAllServices_list_error (env : Env PM MS) (w : World) (err : Error)
    (hfail : w.dc.sLister w.stores Everything = .error err) :
    (GetAllServices env w).1 = .returned (none, some err) := by
  unfold GetAllServices
  simp [hfail]

/-- C6 at a controller whose service lister is broken. -/
theorem GetAllServices_list_error_witness :
    (GetAllServices sampleEnv
      { dc := { cacheController with sLister := brokenServiceLister }
        stores := ⟨[⟨"web", "default", []⟩], [], []⟩
        trace := [] }).1 = .returned (none, some "cache unavailable") :=
  GetAllServices_list_error sampleEnv
    { dc := { cacheController with sLister := brokenServiceLister }
      stores := ⟨[⟨"web", "default", []⟩], [], []⟩
      trace := [] } "cache unavailable" rfl

/-- C7: when listing with `labels.Everything()` succeeds with services
s_0 .. s_(n-1), `GetAllServices` returns a nil error and a list of exactly n
entries whose i-th entry is `toMicroService s_i`: no service is dropped or
duplicated, no slot is left nil, and the order of the lister is kept. -/
theorem GetAllServices_maps_all (env : Env PM MS) (w : World) (l : List Service)
    (hlist : w.dc.sLister w.stores Everything = .ok l) :
    ∃ ms, (GetAllServices env w).1 = .returned (some ms, none) ∧
      ms.length = l.length ∧
      (∀ i (hi : i < l.length), ms[i]? = some (some (env.toMicroService (l.get ⟨i, hi⟩)))) ∧
      ms = l.map (fun s => some (env.toMicroService s)) := by
  refine ⟨_, GetAllServices_listed env w l hlist, by simp, ?_, rfl⟩
  intro i hi
  simp [List.getElem?_map, List.getElem?_eq_getElem hi]

/-- C7 at a store of two services. -/
theorem GetAllServices_maps_all_witness :
    ∃ ms, (GetAllServices sampleEnv
      { dc := cacheController
        stores := ⟨[⟨"web", "default", []⟩, ⟨"db", "default", []⟩], [], []⟩
        trace := [] }).1 = .returned (some ms, none) ∧ ms = [some "web", some "db"] := by
  obtain ⟨ms, h1, _, _, h4⟩ := GetAllServices_maps_all sampleEnv
    { dc := cacheController
      stores := ⟨[⟨"web", "default", []⟩, ⟨"db", "default", []⟩], [], []⟩
      trace := [] } [⟨"web", "default", []⟩, ⟨"db", "default", []⟩] rfl
  exact ⟨ms, h1, h4⟩

/-! ## The queries leave the stores alone -/

/-- C9: `FindEndpoints` and `GetAllServices` never change the mirrored stores or
the fields of the controller: whatever the input and the state, and whether
the call returns a result, returns an error or panics, the endpoints, pod and
service stores and the controller are afterwards what they were before. -/
theorem queries_leave_stores_unchanged (env : Env PM MS) (service : String) (tags : Tags)
    (w : World) :
    (FindEndpoints env service tags w).2.stores = w.stores ∧
    (FindEndpoints env service tags w).2.dc = w.dc ∧
    (GetAllServices env w).2.stores = w.stores ∧
    (GetAllServices env w).2.dc = w.dc :=
  ⟨(FindEndpoints_frame env service tags w).2, (FindEndpoints_frame env service tags w).1,
    (GetAllServices_frame env w).2, (GetAllServices_frame env w).1⟩

/-! ## Properties of Run -/

/-- C8 as stated fails: with the stop channel closed from the start and no
cache synced, `Run` hands no error to its caller under either logger. Under a
logger that leaves options alone it returns the unit value, the very value it
returns after a successful sync, and the abort shows only in the log; under a
logger that applies options the nil option of the error call makes it panic. -/
theorem Run_abort_returns_no_error :
    allSynced cacheController 0 = false ∧
    (Run defaultLogger 1 (fun _ => true) (worldOf (endpointsOf []))).map Prod.fst =
      some (.returned ()) ∧
    (Run defaultLogger 1 (fun _ => true) (worldOf (endpointsOf []))).map Prod.fst =
      (Run defaultLogger 1 (fun _ => false)
        { worldOf (endpointsOf []) with dc := syncedController }).map Prod.fst ∧
    (Run defaultLogger 1 (fun _ => true) (worldOf (endpointsOf []))).map
      (fun r => r.2.trace) =
      some [.log .Info "Starting Discovery Controller",
        .log .Error "Time out waiting for caches to sync"] ∧
    (Run chassisLogger 1 (fun _ => true) (worldOf (endpointsOf []))).map Prod.fst =
      some (.panicked "invalid memory address or nil pointer dereference") ∧
    (Run chassisLogger 1 (fun _ => true) (worldOf (endpointsOf []))).map
      (fun r => r.2.trace) = some [.log .Info "Starting Discovery Controller"] :=
  ⟨rfl, rfl, rfl, rfl, rfl, rfl⟩

/-- C8 amended: `Run` has no result, so no error reaches its caller. If all
three caches report synced at poll `s`, the stop channel having been open after
every earlier poll and none of those polls having found them all synced, `Run`
returns the unit value after logging the starting line and the finishing line,
whatever the logger, and leaves the stores and the controller as they were. If
instead the stop channel is found closed after poll `s` while at no poll up to
`s` all three caches report synced, `Run` hands the message of the timed out
wait and a nil option to `openlog.Error` and ends as that call ends. -/
theorem Run_outcome (logger : Logger) (w : World) (stop : Nat → Bool) (s fuel : Nat)
    (hfuel : s < fuel)
    (hbefore : ∀ j, j < s → allSynced w.dc j = false ∧ stop j = false) :
    (allSynced w.dc s = true →
      ∃ v, Run logger fuel stop w = some (.returned (), v) ∧
        v.trace = w.trace ++ [.log .Info "Starting Discovery Controller",
          .log .Info "Finish Waiting For Cache Sync"] ∧
        v.stores = w.stores ∧ v.dc = w.dc) ∧
    (allSynced w.dc s = false → stop s = true →
      Run logger fuel stop w =
        some (openlogError logger "Time out waiting for caches to sync" [none]
          { w with trace := w.trace ++ [.log .Info "Starting Discovery Controller"] })) := by
  have hwait := WaitForCacheSync_at stop
    [w.dc.sListerSynced, w.dc.eListerSynced, w.dc.pListerSynced] s fuel 0
    (Nat.zero_le s) (by omega) (fun j _ hj => hbefore j hj)
  constructor
  · intro hs
    have h := hwait.1 hs
    refine ⟨(w.emit (.log .Info "Starting Discovery Controller")).emit
      (.log .Info "Finish Waiting For Cache Sync"), ?_, ?_, rfl, rfl⟩
    · unfold Run
      simp only [h]
    · simp
  · intro hs hstop
    have h := hwait.2 hs hstop
    unfold Run
    simp only [h]
    cases hcall : openlogError logger "Time out waiting for caches to sync" [none]
        (w.emit (.log .Info "Starting Discovery Controller")) with
    | mk o w2 =>
      have hcall2 : openlogError logger "Time out waiting for caches to sync" [none]
          { w with trace := w.trace ++ [.log .Info "Starting Discovery Controller"] } =
          (o, w2) := hcall
      rw [hcall2]
      cases o with
      | returned u => rfl
      | panicked msg => rfl

/-- C8 amended, at synced caches with the stop channel open, and at a stop
channel closed from the start with no cache synced. -/
theorem Run_outcome_witness :
    (∃ v, Run chassisLogger 1 (fun _ => false)
        { worldOf (endpointsOf []) with dc := syncedController } =
        some (.returned (), v) ∧
      v.trace = [.log .Info "Starting Discovery Controller",
        .log .Info "Finish Waiting For Cache Sync"]) ∧
    Run chassisLogger 1 (fun _ => true) (worldOf (endpointsOf [])) =
      some (openlogError chassisLogger "Time out waiting for caches to sync" [none]
        { worldOf (endpointsOf []) with
          trace := [.log .Info "Starting Discovery Controller"] }) := by
  refine ⟨?_, ?_⟩
  · obtain ⟨v, h1, h2, _, _⟩ :=
      (Run_outcome chassisLogger { worldOf (endpointsOf []) with dc := syncedController }
        (fun _ => false) 0 1 (by decide)
        (fun j hj => absurd hj (Nat.not_lt_zero j))).1 rfl
    exact ⟨v, h1, h2⟩
  · exact (Run_outcome chassisLogger (worldOf (endpointsOf [])) (fun _ => true) 0 1
      (by decide) (fun j hj => absurd hj (Nat.not_lt_zero j))).2 rfl rfl

end Claims

end KubeRegistry
